import Mathlib

/-!
Shallow embedding of the profiling and construction-validation substrate of the
albumentations repository (files `albumentations/profiling.py` and
`albumentations/core/validation.py`).

Modelling conventions:

* A Python class participating in the pipeline is a `TClass`; the test
  `issubclass(cls, BaseCompose)` from the source is represented by the
  `isCompose` tag (`BaseCompose` itself lives outside the embedded files, so
  composite membership is a boolean attribute of the class).
* A `ProfilerData` node of the source holds `cls`, `name`, `dt` and a
  `profile_data` link to its predecessor.  A predecessor chain is represented
  as a `List ProfilerData` whose head is the node pointed to and whose tail is
  that node's own predecessor chain; the Python value `None` is the empty
  list.  Structure fields keep the source names.
* Wall-clock timestamps and durations are abstract integers supplied by the
  caller (the embedding treats `time.time()` readings as inputs).
* A raising Python call is an `Except` value; an `AttributeError` or
  `TypeError` raised inside `_process_results` is a `PyErr`.
-/

/-- A transform class; `isCompose` embeds `issubclass(cls, BaseCompose)`. -/
structure TClass where
  clsName : String
  isCompose : Bool
deriving DecidableEq, Repr

/-- One `ProfilerData` node of `profiling.py` (fields `cls`, `name`, `dt`);
the `profile_data` predecessor link is the tail of the containing list. -/
structure ProfilerData where
  cls : Option TClass
  name : String
  dt : Int
deriving DecidableEq, Repr

/-- The errors `_process_results` can raise: dereferencing `None.profile_data`
(an `AttributeError`) and `issubclass(None, BaseCompose)` (a `TypeError`). -/
inductive PyErr where
  | attributeError
  | typeError
deriving DecidableEq, Repr

/-- `_PROFILER_RUN_NAME` from the source. -/
def PROFILER_RUN_NAME : String := "Profiling"

/-- The mutable fields of a `Profiler` object: `_current_run`, `_last_run`
(each an optional predecessor chain, `[]` standing for `None`), `_started`
and `_t_start`. -/
structure ProfilerState where
  currentRun : List ProfilerData
  lastRun : List ProfilerData
  started : Bool
  tStart : Int
deriving DecidableEq, Repr

/-- The state right after `Profiler.__init__` (method patching aside):
`_current_run = None`, `_last_run = None`, `_started = False`, `_t_start = 0`. -/
def initProfiler : ProfilerState :=
  { currentRun := [], lastRun := [], started := false, tStart := 0 }

/-- `Profiler.start`.  Returns the post-state and the message of the raised
`RuntimeError`, if any; a raise happens before any field is assigned, so the
state component is the unchanged input state on failure. -/
def Profiler.start (now : Int) (st : ProfilerState) : ProfilerState × Option String :=
  if st.started then
    (st, some "Profiling already started.")
  else if st.currentRun ≠ [] then
    (st, some "Current run data is not empty. Maybe you forget to call `stop`.")
  else
    ({ st with started := true, tStart := now }, none)

/-- `Profiler.stop`.  On success the previous `_current_run` chain is wrapped
as the predecessor of a fresh synthetic root (`cls=None`,
`name=_PROFILER_RUN_NAME`, `dt = now - _t_start`), stored in `_last_run`;
`_current_run` is cleared and the session is marked stopped. -/
def Profiler.stop (now : Int) (st : ProfilerState) : ProfilerState × Option String :=
  if ¬ st.started then
    (st, some "Profiler is not started. Call `start` first.")
  else
    ({ st with
        lastRun := ⟨none, PROFILER_RUN_NAME, now - st.tStart⟩ :: st.currentRun,
        currentRun := [],
        started := false }, none)

/-- `Profiler.get_profile_results`: a pure read of `_last_run`. -/
def getProfileResults (st : ProfilerState) : List ProfilerData :=
  st.lastRun

/-- The timing wrapper `_profile_wrapper` installs on a tracked method.  The
original method is `f` (raising calls return `Except.error`); `dt` is the
wall-clock duration measured around the inner call.  When no session is
started the original is invoked directly and the state is untouched; when the
inner call raises, the exception propagates before the record append; on a
successful return a new record is consed onto `_current_run`. -/
def wrappedCall {α E β : Type} (st : ProfilerState) (cls : TClass) (name : String)
    (f : α → Except E β) (dt : Int) (x : α) : Except E β × ProfilerState :=
  if st.started = false then
    (f x, st)
  else
    match f x with
    | .error e => (.error e, st)
    | .ok r => (.ok r, { st with currentRun := ⟨some cls, name, dt⟩ :: st.currentRun })

/-- The state effect of one successfully returning tracked call: the second
component of `wrappedCall` with an original method that returns normally. -/
def recordStep (st : ProfilerState) (cls : TClass) (name : String) (dt : Int) :
    ProfilerState :=
  (wrappedCall st cls name (fun _ : Unit => (Except.ok 0 : Except Unit Nat)) dt ()).2

/-- A dynamic execution of nested tracked calls: a node is one tracked call of
class `cls` / method `name` taking `dt` inside which the child calls run. -/
inductive CallTree where
  | node (cls : TClass) (name : String) (dt : Int) (children : List CallTree)
deriving Repr

mutual

/-- Executing one tracked call: the wrapped method's body first performs the
child calls, then the wrapper appends the record for this call on return. -/
def execTree (st : ProfilerState) : CallTree → ProfilerState
  | .node cls name dt children => recordStep (execForest st children) cls name dt

/-- Executing a sequence of tracked calls left to right. -/
def execForest (st : ProfilerState) : List CallTree → ProfilerState
  | [] => st
  | t :: ts => execForest (execTree st t) ts

end

mutual

/-- The records of a nested execution in completion (postorder) order: all
children complete before their parent does. -/
def postT : CallTree → List ProfilerData
  | .node cls name dt children => postF children ++ [⟨some cls, name, dt⟩]

/-- Completion order of a sequence of nested calls. -/
def postF : List CallTree → List ProfilerData
  | [] => []
  | t :: ts => postT t ++ postF ts

end

/-!  The result aggregator of `ProfilerData._process_results`.  Python dicts
preserve insertion order, so a dict keyed by class (resp. method name) is an
association list to which new keys are appended at the end. -/

/-- A per-class inner dict: method name to the list of matching records. -/
abbrev MethodMap := List (String × List ProfilerData)

/-- A grouping dict as built by `add_func`: class to `MethodMap`. -/
abbrev Grouping := List (Option TClass × MethodMap)

/-- The inner update of `add_func`: ensure `result[cls][name]` exists and
append `data` to it. -/
def addName (nm : String) (data : ProfilerData) : MethodMap → MethodMap
  | [] => [(nm, [data])]
  | (k, l) :: rest =>
    if k = nm then (k, l ++ [data]) :: rest else (k, l) :: addName nm data rest

/-- `add_func(data, result)` of `_process_results`: append `data` under
`result[data.cls][data.name]`, creating the missing keys at the end. -/
def add_func (data : ProfilerData) : Grouping → Grouping
  | [] => [(data.cls, [(data.name, [data])])]
  | (c, m) :: rest =>
    if c = data.cls then (c, addName data.name data m) :: rest
    else (c, m) :: add_func data rest

/-- `issubclass(data.cls, BaseCompose)`: raises `TypeError` when the class is
`None` (which the wrapper never produces for in-chain records). -/
def composeCheck : Option TClass → Except PyErr Bool
  | none => .error .typeError
  | some c => .ok c.isCompose

/-- The local state `process` has accumulated when the recursion finishes:
`by_obj`, the stack-frame dicts in creation order (`by_stack` is the head;
the later frames are the fresh dicts opened at composite records, which the
source never stores anywhere but does populate), and `sequence_call`. -/
structure ProcOut where
  by_obj : Grouping
  frames : List Grouping
  sequence_call : List ProfilerData
deriving DecidableEq, Repr

/-- The recursion `process(data, stack_data)` of `_process_results`, with the
accumulated locals made explicit.  The first argument is `data` rendered as a
predecessor chain; `cur` is the dict currently bound to `stack_data`.
`process(None, ...)` dereferences `None.profile_data`, an `AttributeError`;
a record whose own `profile_data` is `None` (the chain terminal) returns
without being added anywhere; otherwise the record is added to `by_obj`,
`sequence_call` and the current frame, and the recursion continues — inside a
fresh frame when the record's class is a `BaseCompose` subclass. -/
def walk : List ProfilerData → Grouping → Grouping → List Grouping →
    List ProfilerData → Except PyErr ProcOut
  | [], _, _, _, _ => .error .attributeError
  | [_], by_obj, cur, closed, seq => .ok ⟨by_obj, closed ++ [cur], seq⟩
  | r :: s :: rest, by_obj, cur, closed, seq =>
    match composeCheck r.cls with
    | .error e => .error e
    | .ok true =>
      walk (s :: rest) (add_func r by_obj) [] (closed ++ [add_func r cur]) (seq ++ [r])
    | .ok false =>
      walk (s :: rest) (add_func r by_obj) (add_func r cur) closed (seq ++ [r])

/-- The `results` property of a `ProfilerData` node (given as the node plus
its predecessor chain, i.e. a nonempty list; reading the property on `None`
is itself an `AttributeError`).  `_process_results` assigns the empty dict to
`_results` on entry and never stores the groupings it builds in local
variables, so every successful read returns the empty dict; an exception
raised by the walk propagates to the reader. -/
def ProfilerData.results : List ProfilerData → Except PyErr Grouping
  | [] => .error .attributeError
  | _ :: preds =>
    match walk preds [] [] [] [] with
    | .error e => .error e
    | .ok _ => .ok []

/-!  Specification-side descriptions of the walk, used to characterise the
stack-frame layout the traversal produces. -/

/-- Whether a chain record triggers the fresh-frame branch of the walk. -/
def isComposeRec (data : ProfilerData) : Bool :=
  match data.cls with
  | some c => c.isCompose
  | none => false

/-- Split a processed record sequence into stack-frame segments: a composite
record ends its segment, and the records visited after it form new segments. -/
def segs : List ProfilerData → List (List ProfilerData)
  | [] => [[]]
  | r :: rest =>
    if isComposeRec r then [r] :: segs rest
    else
      match segs rest with
      | s :: ss => (r :: s) :: ss
      | [] => [[r]]

/-- Fold a record segment into a grouping dict with `add_func`. -/
def foldGroup (g : Grouping) (rs : List ProfilerData) : Grouping :=
  rs.foldl (fun acc r => add_func r acc) g

/-- The frame dicts corresponding to a segment list: the first segment lands
in the frame dict `cur` that was current when the walk began, each later
segment in a fresh dict. -/
def framesFrom (cur : Grouping) : List (List ProfilerData) → List Grouping
  | [] => []
  | s :: ss => foldGroup cur s :: ss.map (foldGroup [])

/-- Membership of a record in a grouping dict (under any class and name). -/
def inGroup (r : ProfilerData) (g : Grouping) : Bool :=
  g.any (fun e => e.2.any (fun m => m.2.any (fun x => decide (x = r))))

deriving instance DecidableEq for Except

/-!  The construction validator of `core/validation.py`.  Argument values are
modelled as integers; a keyword mapping is an insertion-ordered association
list, matching Python dict semantics. -/

/-- One declared parameter of the original `__init__`: its name and declared
default (`none` embeds `Parameter.empty`). -/
structure Param where
  name : String
  default : Option Int
deriving DecidableEq, Repr

/-- A Python keyword-argument dict (insertion-ordered). -/
abbrev KwArgs := List (String × Int)

/-- `d[k] = v` on a dict: replace in place when the key exists, else append. -/
def dictSet : KwArgs → String → Int → KwArgs
  | [], k, v => [(k, v)]
  | (k0, v0) :: rest, k, v =>
    if k0 = k then (k0, v) :: rest else (k0, v0) :: dictSet rest k v

/-- `d.update(kw)`: apply `dictSet` for each entry of `kw` in order. -/
def dictUpdate (d : KwArgs) (kw : KwArgs) : KwArgs :=
  kw.foldl (fun acc p => dictSet acc p.1 p.2) d

/-- `k in d` on a dict. -/
def dictHas (d : KwArgs) (k : String) : Bool :=
  d.any (fun p => decide (p.1 = k))

/-- The argument-binding part of `custom_init`: zip the caller's positional
arguments to the declared parameter names with `self` excluded (`zip`
truncates the longer list), overlay the explicit keyword arguments, then fill
every still-absent non-`self` parameter that declares a default. -/
def bindArgs (init_params : List Param) (args : List Int) (kwargs : KwArgs) :
    KwArgs :=
  init_params.foldl
    (fun full p =>
      if p.name ≠ "self" ∧ ¬ dictHas full p.name then
        match p.default with
        | some v => full ++ [(p.name, v)]
        | none => full
      else full)
    (dictUpdate (((init_params.map (fun p => p.name)).tail).zip args) kwargs)

/-- `custom_init` of `ValidatedTransformMeta`: bind the arguments, construct
the `InitSchema` from the full mapping (its validation failures propagate
unmodified), and invoke the original `__init__` with exactly the schema's
validated field values.  The returned `.ok` value is the keyword mapping the
original constructor receives. -/
def custom_init (init_params : List Param)
    (initSchema : KwArgs → Except String KwArgs)
    (args : List Int) (kwargs : KwArgs) : Except String KwArgs :=
  match initSchema (bindArgs init_params args kwargs) with
  | .error e => .error e
  | .ok validated_kwargs => .ok validated_kwargs

/-!  Concrete fixtures: transform classes, sessions and chains evaluated in
the theorems below. -/

/-- A composite container class (a `BaseCompose` subclass). -/
def composeCls : TClass := ⟨"Compose", true⟩

/-- A leaf transform class. -/
def flipCls : TClass := ⟨"HorizontalFlip", false⟩

/-- Another leaf transform class. -/
def blurCls : TClass := ⟨"Blur", false⟩

/-- A session that is started at time 0 and has performed no call yet. -/
def stStarted : ProfilerState := (Profiler.start 0 initProfiler).1

/-- A completed session: started at 0, one tracked call of
`HorizontalFlip.apply` taking 5, stopped at 10. -/
def sessionOneCall : ProfilerState :=
  (Profiler.stop 10 (recordStep stStarted flipCls "apply" 5)).1

/-- A completed session with no tracked calls: started at 3, stopped at 11. -/
def sessionNoCalls : ProfilerState :=
  (Profiler.stop 11 (Profiler.start 3 initProfiler).1).1

/-- A nested execution: two top-level leaf calls, then a top-level composite
call inside which one child leaf call runs. -/
def nestedForest : List CallTree :=
  [ .node blurCls "apply" 1 [],
    .node flipCls "apply" 2 [],
    .node composeCls "__call__" 4 [.node flipCls "apply" 3 []] ]

/-- The record of the child call nested inside the composite call. -/
def recChild : ProfilerData := ⟨some flipCls, "apply", 3⟩

/-- The record of the top-level sibling call that completed before the
composite call started. -/
def recSibling : ProfilerData := ⟨some flipCls, "apply", 2⟩

/-- The chain `nestedForest` leaves in `_current_run`: head is the composite
call (completed last), then its nested child, then the two earlier top-level
leaf calls. -/
def nestedChain : List ProfilerData :=
  [⟨some composeCls, "__call__", 4⟩, recChild, recSibling,
   ⟨some blurCls, "apply", 1⟩]

/-- An active session in which one tracked call has completed. -/
def stActiveWithCall : ProfilerState := recordStep stStarted flipCls "apply" 2

/-- A stopped-state profiler carrying a leftover non-empty chain. -/
def stLeftover : ProfilerState :=
  { currentRun := [⟨some flipCls, "apply", 1⟩], lastRun := [], started := false,
    tStart := 0 }

/-- The declared constructor parameters `(self, a, b=10)`. -/
def paramsAB : List Param := [⟨"self", none⟩, ⟨"a", none⟩, ⟨"b", some 10⟩]

/-- A schema that accepts every bound mapping and returns it unchanged. -/
def okSchema : KwArgs → Except String KwArgs := fun k => .ok k

/-!  Helper lemmas shared by several claim theorems. -/

/-- `List.zip` truncates its right argument to the length of the left one. -/
theorem zip_take_length : ∀ (xs : List String) (ys : List Int),
    xs.zip ys = xs.zip (ys.take xs.length)
  | [], _ => by simp
  | _ :: _, [] => by simp
  | x :: xs, y :: ys => by
    simp only [List.zip_cons_cons, List.length_cons, List.take_succ_cons]
    rw [← zip_take_length xs ys]

/-- The binder ignores positional arguments beyond the declared parameter
count (excluding the instance parameter): `zip` drops them silently. -/
theorem bindArgs_take (init_params : List Param) (args : List Int)
    (kwargs : KwArgs) :
    bindArgs init_params args kwargs =
      bindArgs init_params (args.take init_params.tail.length) kwargs := by
  have hlen : ((init_params.map (fun p => p.name)).tail).length =
      init_params.tail.length := by
    simp [List.length_tail, List.length_map]
  unfold bindArgs
  rw [zip_take_length ((init_params.map (fun p => p.name)).tail) args, hlen]

/-!  Claim theorems. -/

/-- C1: the claim reads the flat grouping of a completed 1-call session off
the `results` property and expects one entry for the called (class, method)
pair with `count` 1.  The code stores nothing in `_results` (the groupings
are built in locals and discarded), so `results` is the empty dict; moreover
the walk skips the terminal record, so even the internal flat grouping of a
single-call chain is empty.  This theorem evaluates the code at the failing
input: a session with one completed `HorizontalFlip.apply` call. -/
theorem results_of_single_call_session :
    getProfileResults sessionOneCall =
      [⟨none, PROFILER_RUN_NAME, 10⟩, ⟨some flipCls, "apply", 5⟩] ∧
    ProfilerData.results (getProfileResults sessionOneCall) = .ok [] ∧
    walk [⟨some flipCls, "apply", 5⟩] [] [] [] [] = .ok ⟨[], [[]], []⟩ :=
  ⟨rfl, rfl, rfl⟩

/-- C2: the claim expects the root of an immediately stopped session to carry
`dt` equal to the elapsed wall time (it does: 11 − 3 = 8) and its `results`
read to succeed with empty groupings.  The read instead raises
`AttributeError`: `_process_results` calls `process(None, by_stack)` and
dereferences `None.profile_data`. -/
theorem results_of_empty_session :
    getProfileResults sessionNoCalls = [⟨none, PROFILER_RUN_NAME, 8⟩] ∧
    ProfilerData.results (getProfileResults sessionNoCalls) =
      .error .attributeError :=
  ⟨rfl, rfl⟩

/-- C3 counterexample: a call with three positional arguments against the
two-parameter constructor `(a, b=10)` does not fail; construction succeeds
and the third argument is silently dropped by `zip`. -/
theorem customInit_three_positionals_construct :
    custom_init paramsAB okSchema [1, 2, 3] [] = .ok [("a", 1), ("b", 2)] :=
  rfl

/-- C3 amended: supplying more positional arguments than the constructor
declares is not a binding error; the extra arguments are silently discarded
and construction proceeds exactly as if only the first `k` positional
arguments had been supplied. -/
theorem customInit_extra_positionals_dropped (init_params : List Param)
    (initSchema : KwArgs → Except String KwArgs)
    (args : List Int) (kwargs : KwArgs) :
    custom_init init_params initSchema args kwargs =
      custom_init init_params initSchema (args.take init_params.tail.length)
        kwargs := by
  unfold custom_init
  rw [bindArgs_take init_params args kwargs]

/-- C5 counterexample: in a state where a session is started and the current
chain is non-empty, `start()` fails with the already-started error, not with
the leftover-chain error the claim requires for every non-empty-chain state. -/
theorem start_on_active_session_not_leftover_error :
    stActiveWithCall.currentRun ≠ [] ∧
    (Profiler.start 5 stActiveWithCall).2 = some "Profiling already started." ∧
    (some "Profiling already started." : Option String) ≠
      some "Current run data is not empty. Maybe you forget to call `stop`." :=
  ⟨by decide, by decide, by decide⟩

/-- C5 amended: `stop()` without a started session fails with the not-started
error; `start()` during a started session fails with the already-active error
(this check comes first); `start()` with no started session but a non-empty
leftover chain fails with the leftover-chain error; every failure returns
before mutating, leaving the state unchanged. -/
theorem start_stop_usage_errors (st : ProfilerState) (now : Int) :
    (st.started = false →
      Profiler.stop now st =
        (st, some "Profiler is not started. Call `start` first.")) ∧
    (st.started = true →
      Profiler.start now st = (st, some "Profiling already started.")) ∧
    (st.started = false → st.currentRun ≠ [] →
      Profiler.start now st =
        (st, some "Current run data is not empty. Maybe you forget to call `stop`.")) :=
  ⟨fun h => by simp [Profiler.stop, h],
   fun h => by simp [Profiler.start, h],
   fun h h2 => by simp [Profiler.start, h, h2]⟩

/-- C5 witness: the three failure modes evaluated at concrete states. -/
theorem start_stop_usage_errors_witness :
    Profiler.stop 7 initProfiler =
      (initProfiler, some "Profiler is not started. Call `start` first.") ∧
    Profiler.start 7 stStarted = (stStarted, some "Profiling already started.") ∧
    Profiler.start 7 stLeftover =
      (stLeftover, some "Current run data is not empty. Maybe you forget to call `stop`.") :=
  ⟨(start_stop_usage_errors initProfiler 7).1 (by decide),
   (start_stop_usage_errors stStarted 7).2.1 (by decide),
   (start_stop_usage_errors stLeftover 7).2.2 (by decide) (by decide)⟩

/-- C6: the bound keyword mapping handed to the schema for a constructor
`(a, b=10)` is exactly as claimed on the calls `Cls(5)`, `Cls(5, b=20)` and
`Cls(a=5)`; keyword arguments overlay zipped positional values; and whenever
the schema validates, the original constructor receives exactly the schema's
validated field values. -/
theorem bindArgs_examples_and_schema_forwarding :
    bindArgs paramsAB [5] [] = [("a", 5), ("b", 10)] ∧
    bindArgs paramsAB [5] [("b", 20)] = [("a", 5), ("b", 20)] ∧
    bindArgs paramsAB [] [("a", 5)] = [("a", 5), ("b", 10)] ∧
    bindArgs paramsAB [1] [("a", 5)] = [("a", 5), ("b", 10)] ∧
    (∀ (initSchema : KwArgs → Except String KwArgs) (args : List Int)
        (kwargs : KwArgs) (validated : KwArgs),
      initSchema (bindArgs paramsAB args kwargs) = .ok validated →
      custom_init paramsAB initSchema args kwargs = .ok validated) :=
  ⟨rfl, rfl, rfl, rfl, fun _ _ _ _ h => by simp [custom_init, h]⟩

/-- C6 witness: the schema-forwarding clause at the call `Cls(5)` with the
identity schema. -/
theorem bindArgs_examples_witness :
    custom_init paramsAB okSchema [5] [] = .ok [("a", 5), ("b", 10)] :=
  bindArgs_examples_and_schema_forwarding.2.2.2.2 okSchema [5] []
    [("a", 5), ("b", 10)] rfl

/-- C7: with no session started, the timing wrapper invokes the original
method and returns its result unchanged, appending no record and leaving the
profiler state exactly as it was. -/
theorem wrappedCall_passthrough_when_not_started {α E β : Type}
    (st : ProfilerState) (cls : TClass) (nm : String)
    (f : α → Except E β) (dt : Int) (x : α) (h : st.started = false) :
    wrappedCall st cls nm f dt x = (f x, st) := by
  simp [wrappedCall, h]

/-- C7 witness: pass-through at a concrete never-started state and method. -/
theorem wrappedCall_passthrough_witness :
    wrappedCall initProfiler flipCls "apply"
      (fun n : Nat => (Except.ok (n + 1) : Except String Nat)) 9 4 =
      (Except.ok 5, initProfiler) :=
  wrappedCall_passthrough_when_not_started initProfiler flipCls "apply"
    (fun n : Nat => (Except.ok (n + 1) : Except String Nat)) 9 4 (by decide)

/-- C8: during a started session, an exception raised by the original method
propagates unchanged through the wrapper and no record is appended: the state
(in particular the chain head `_current_run`) is exactly what it was. -/
theorem wrappedCall_exception_propagates {α E β : Type}
    (st : ProfilerState) (cls : TClass) (nm : String)
    (f : α → Except E β) (dt : Int) (x : α) (e : E)
    (hs : st.started = true) (hf : f x = .error e) :
    wrappedCall st cls nm f dt x = (.error e, st) := by
  simp [wrappedCall, hs, hf]

/-- C8 witness: a raising original method at a concrete started state. -/
theorem wrappedCall_exception_witness :
    wrappedCall stStarted flipCls "apply"
      (fun _ : Nat => (Except.error "boom" : Except String Nat)) 9 4 =
      (Except.error "boom", stStarted) :=
  wrappedCall_exception_propagates stStarted flipCls "apply"
    (fun _ : Nat => (Except.error "boom" : Except String Nat)) 9 4 "boom"
    (by decide) rfl

/-- One successfully returning tracked call preserves `_started`, `_last_run`
and `_t_start`, and conses its record onto `_current_run` exactly when a
session is started. -/
theorem recordStep_state (st : ProfilerState) (cls : TClass) (nm : String)
    (dt : Int) :
    (recordStep st cls nm dt).started = st.started ∧
    (recordStep st cls nm dt).lastRun = st.lastRun ∧
    (recordStep st cls nm dt).tStart = st.tStart ∧
    (recordStep st cls nm dt).currentRun =
      (if st.started then [⟨some cls, nm, dt⟩] else []) ++ st.currentRun := by
  cases h : st.started <;> simp [recordStep, wrappedCall, h]

mutual

/-- A nested execution of one tracked call preserves `_started`, `_last_run`
and `_t_start`, and prepends the reversed completion order of its records to
`_current_run` when a session is started. -/
theorem execTree_state (t : CallTree) (st : ProfilerState) :
    (execTree st t).started = st.started ∧
    (execTree st t).lastRun = st.lastRun ∧
    (execTree st t).tStart = st.tStart ∧
    (execTree st t).currentRun =
      (if st.started then (postT t).reverse else []) ++ st.currentRun := by
  cases t with
  | node cls nm dt children =>
    have hF := execForest_state children st
    have hR := recordStep_state (execForest st children) cls nm dt
    refine ⟨by rw [execTree, hR.1, hF.1], by rw [execTree, hR.2.1, hF.2.1],
      by rw [execTree, hR.2.2.1, hF.2.2.1], ?_⟩
    rw [execTree, hR.2.2.2, hF.1, hF.2.2.2]
    cases h : st.started <;> simp [postT]

/-- A nested execution of a call sequence preserves `_started`, `_last_run`
and `_t_start`, and prepends the reversed completion order of its records to
`_current_run` when a session is started. -/
theorem execForest_state (ts : List CallTree) (st : ProfilerState) :
    (execForest st ts).started = st.started ∧
    (execForest st ts).lastRun = st.lastRun ∧
    (execForest st ts).tStart = st.tStart ∧
    (execForest st ts).currentRun =
      (if st.started then (postF ts).reverse else []) ++ st.currentRun := by
  cases ts with
  | nil => simp [execForest, postF]
  | cons t ts =>
    have hT := execTree_state t st
    have hF := execForest_state ts (execTree st t)
    refine ⟨by rw [execForest, hF.1, hT.1], by rw [execForest, hF.2.1, hT.2.1],
      by rw [execForest, hF.2.2.1, hT.2.2.1], ?_⟩
    rw [execForest, hF.2.2.2, hT.1, hT.2.2.2]
    cases h : st.started <;> simp [postF]

end

/-- C9: during an active session, the chain read from the head by following
predecessor links to the terminal enumerates exactly the completed tracked
calls — nested executions included — in reverse chronological completion
order: the last-completed call is the head. -/
theorem chain_is_reverse_completion_order (ts : List CallTree)
    (st : ProfilerState) (hs : st.started = true) (hc : st.currentRun = []) :
    (execForest st ts).currentRun = (postF ts).reverse := by
  rw [(execForest_state ts st).2.2.2, hs, hc]
  simp

/-- C9 witness: the chain of the concrete nested execution equals the
reversed completion order of its calls. -/
theorem chain_is_reverse_completion_order_witness :
    (execForest stStarted nestedForest).currentRun =
      (postF nestedForest).reverse :=
  chain_is_reverse_completion_order nestedForest stStarted (by decide)
    (by decide)

/-- `stop()` on a started session succeeds and installs the synthetic root. -/
theorem stop_ok (s : ProfilerState) (h : s.started = true) (now : Int) :
    Profiler.stop now s =
      ({ s with
          lastRun := ⟨none, PROFILER_RUN_NAME, now - s.tStart⟩ :: s.currentRun,
          currentRun := [], started := false }, none) := by
  simp [Profiler.stop, h]

/-- `start()` on a stopped session with an empty chain succeeds. -/
theorem start_ok (s : ProfilerState) (h1 : s.started = false)
    (h2 : s.currentRun = []) (now : Int) :
    Profiler.start now s = ({ s with started := true, tStart := now }, none) := by
  simp [Profiler.start, h1, h2]

/-- C10: after a successful `stop()` at `t1` and a subsequent successful
`start()` at `t2`, `get_profile_results()` still returns the previous
session's synthetic root chain, it remains unchanged through any tracked
calls of the new session, and it is replaced (by the new session's synthetic
root) only by the next `stop()`. -/
theorem lastRun_preserved_until_next_stop (st : ProfilerState)
    (t1 t2 t3 : Int) (ts : List CallTree) (hs : st.started = true) :
    (Profiler.stop t1 st).2 = none ∧
    (Profiler.start t2 (Profiler.stop t1 st).1).2 = none ∧
    getProfileResults (Profiler.start t2 (Profiler.stop t1 st).1).1 =
      ⟨none, PROFILER_RUN_NAME, t1 - st.tStart⟩ :: st.currentRun ∧
    getProfileResults
        (execForest (Profiler.start t2 (Profiler.stop t1 st).1).1 ts) =
      ⟨none, PROFILER_RUN_NAME, t1 - st.tStart⟩ :: st.currentRun ∧
    (Profiler.stop t3
        (execForest (Profiler.start t2 (Profiler.stop t1 st).1).1 ts)).2 =
      none ∧
    getProfileResults
        (Profiler.stop t3
          (execForest (Profiler.start t2 (Profiler.stop t1 st).1).1 ts)).1 =
      ⟨none, PROFILER_RUN_NAME, t3 - t2⟩ ::
        (execForest (Profiler.start t2 (Profiler.stop t1 st).1).1 ts).currentRun := by
  have hstop := stop_ok st hs t1
  have hstart : Profiler.start t2 (Profiler.stop t1 st).1 =
      ({ st with
          lastRun := ⟨none, PROFILER_RUN_NAME, t1 - st.tStart⟩ :: st.currentRun,
          currentRun := [], started := true, tStart := t2 }, none) := by
    rw [hstop]
    exact start_ok _ rfl rfl t2
  have hF := execForest_state ts (Profiler.start t2 (Profiler.stop t1 st).1).1
  have hstarted :
      (execForest (Profiler.start t2 (Profiler.stop t1 st).1).1 ts).started =
        true := by
    rw [hF.1, hstart]
  have htS : (execForest (Profiler.start t2 (Profiler.stop t1 st).1).1 ts).tStart =
      t2 := by
    rw [hF.2.2.1, hstart]
  refine ⟨by rw [hstop], by rw [hstart], by rw [hstart]; rfl, ?_, ?_, ?_⟩
  · rw [getProfileResults, hF.2.1, hstart]
  · rw [stop_ok _ hstarted t3]
  · rw [stop_ok _ hstarted t3, getProfileResults, htS]

/-- C10 witness: the preservation chain at a concrete active session with one
completed call, new-session calls included. -/
theorem lastRun_preserved_until_next_stop_witness :
    (Profiler.stop 6 stActiveWithCall).2 = none ∧
    (Profiler.start 7 (Profiler.stop 6 stActiveWithCall).1).2 = none ∧
    getProfileResults (Profiler.start 7 (Profiler.stop 6 stActiveWithCall).1).1 =
      ⟨none, PROFILER_RUN_NAME, 6 - stActiveWithCall.tStart⟩ ::
        stActiveWithCall.currentRun ∧
    getProfileResults
        (execForest (Profiler.start 7 (Profiler.stop 6 stActiveWithCall).1).1
          nestedForest) =
      ⟨none, PROFILER_RUN_NAME, 6 - stActiveWithCall.tStart⟩ ::
        stActiveWithCall.currentRun ∧
    (Profiler.stop 9
        (execForest (Profiler.start 7 (Profiler.stop 6 stActiveWithCall).1).1
          nestedForest)).2 = none ∧
    getProfileResults
        (Profiler.stop 9
          (execForest (Profiler.start 7 (Profiler.stop 6 stActiveWithCall).1).1
            nestedForest)).1 =
      ⟨none, PROFILER_RUN_NAME, 9 - 7⟩ ::
        (execForest (Profiler.start 7 (Profiler.stop 6 stActiveWithCall).1).1
          nestedForest).currentRun :=
  lastRun_preserved_until_next_stop stActiveWithCall 6 7 9 nestedForest
    (by decide)

/-- `segs` never returns the empty segment list. -/
theorem segs_ne_nil : ∀ (l : List ProfilerData), segs l ≠ []
  | [] => by simp [segs]
  | r :: rest => by
    rw [segs]
    cases h : isComposeRec r with
    | true => simp
    | false =>
      simp only [Bool.false_eq_true, if_false]
      cases segs rest <;> simp

/-- With an empty starting frame, `framesFrom` folds every segment into a
fresh dict. -/
theorem framesFrom_nil : ∀ (l : List (List ProfilerData)),
    framesFrom [] l = l.map (foldGroup [])
  | [] => rfl
  | _ :: _ => rfl

/-- Characterisation of the `process` recursion with arbitrary accumulated
locals: the walk visits exactly the chain minus its terminal record, folds
those records into `by_obj` and `sequence_call`, and lays them out in stack
frames that are precisely the segments obtained by starting a fresh frame
right after every composite-container record. -/
theorem walk_spec : ∀ (chain : List ProfilerData) (by_obj cur : Grouping)
    (closed : List Grouping) (seq : List ProfilerData),
    chain ≠ [] → (∀ r ∈ chain, r.cls.isSome) →
    walk chain by_obj cur closed seq =
      .ok ⟨foldGroup by_obj chain.dropLast,
           closed ++ framesFrom cur (segs chain.dropLast),
           seq ++ chain.dropLast⟩
  | [], _, _, _, _, h, _ => absurd rfl h
  | [_], by_obj, cur, closed, seq, _, _ => by
    simp [walk, foldGroup, segs, framesFrom]
  | r :: s :: rest, by_obj, cur, closed, seq, _, hsome => by
    obtain ⟨c, hc⟩ := Option.isSome_iff_exists.mp (hsome r (by simp))
    have hmem : ∀ x ∈ s :: rest, x.cls.isSome := fun x hx =>
      hsome x (List.mem_cons_of_mem r hx)
    have hne : s :: rest ≠ [] := by simp
    simp only [walk]
    rw [hc]
    simp only [composeCheck]
    cases hcomp : c.isCompose with
    | true =>
      rw [walk_spec (s :: rest) (add_func r by_obj) []
        (closed ++ [add_func r cur]) (seq ++ [r]) hne hmem]
      have hsegs : segs ((r :: s :: rest).dropLast) =
          [r] :: segs ((s :: rest).dropLast) := by
        rw [show (r :: s :: rest).dropLast = r :: (s :: rest).dropLast from rfl,
          segs]
        simp [isComposeRec, hc, hcomp]
      rw [hsegs, framesFrom_nil]
      simp [framesFrom, foldGroup]
    | false =>
      rw [walk_spec (s :: rest) (add_func r by_obj) (add_func r cur)
        closed (seq ++ [r]) hne hmem]
      cases hss : segs ((s :: rest).dropLast) with
      | nil => exact absurd hss (segs_ne_nil _)
      | cons s0 ss =>
        have hsegs : segs ((r :: s :: rest).dropLast) = (r :: s0) :: ss := by
          rw [show (r :: s :: rest).dropLast = r :: (s :: rest).dropLast from rfl,
            segs]
          simp [isComposeRec, hc, hcomp, hss]
        rw [hsegs]
        simp [framesFrom, foldGroup]

/-- C4 amended: the frame grouping built by the traversal (the source builds
it in local dicts; the `results` read itself returns the empty dict, see the
C1 theorem) lays the visited records — the chain minus its terminal record —
out in segments that start afresh right after every composite-container
record: a composite's nested child calls never share a frame with the
composite itself or with sibling calls completed after it, but calls of the
enclosing scope that completed before the composite fall into the same fresh
frame as the children. -/
theorem walk_opens_fresh_frame_per_composite (chain : List ProfilerData)
    (h1 : chain ≠ []) (h2 : ∀ r ∈ chain, r.cls.isSome) :
    walk chain [] [] [] [] =
      .ok ⟨foldGroup [] chain.dropLast,
           framesFrom [] (segs chain.dropLast),
           chain.dropLast⟩ := by
  have h := walk_spec chain [] [] [] [] h1 h2
  simpa using h

/-- C4 witness: the frame characterisation evaluated on the concrete nested
chain. -/
theorem walk_opens_fresh_frame_witness :
    walk nestedChain [] [] [] [] =
      .ok ⟨foldGroup [] nestedChain.dropLast,
           framesFrom [] (segs nestedChain.dropLast),
           nestedChain.dropLast⟩ :=
  walk_opens_fresh_frame_per_composite nestedChain (by decide) (by decide)

/-- C4 counterexample: in the session executing `nestedForest` — two
top-level leaf calls, then a composite call with one nested child call — the
traversal puts the child-call record and the record of the top-level sibling
call that completed before the composite into the same stack frame,
contradicting the claim that child records never share a frame with sibling
calls of the composite's enclosing scope. -/
theorem composite_frame_contains_enclosing_sibling :
    (execForest stStarted nestedForest).currentRun = nestedChain ∧
    (walk nestedChain [] [] [] []).map
        (fun out => out.frames.any
          (fun fr => inGroup recChild fr && inGroup recSibling fr)) =
      .ok true :=
  ⟨by decide, by decide⟩
